import Mathlib

/-
Verification of the seam-finding core of smart_seam.py (SmartSeamInvocation.get_seam_line
and its helper shift).  Grids are shallowly embedded as total functions Nat → Nat → ℚ
together with explicit row/column counts; float arithmetic is modelled by exact rational
arithmetic, which is faithful for the structural properties considered here.
-/

namespace SmartSeam

/-- A two-dimensional numeric grid: `rows` by `cols`, entries given by a total
function (entries outside the rectangle are irrelevant junk). -/
structure Grid where
  rows : Nat
  cols : Nat
  f : Nat → Nat → ℚ

/-- Embedding of the helper `shift(arr, num, fill_value)` of smart_seam.py applied to a
one-dimensional row of length `n`:
for `num > 0`, `result[:num] = fill` and `result[num:] = arr[:-num]`;
for `num < 0`, `result[num:] = fill` and `result[:num] = arr[-num:]`;
for `num = 0` the row is copied. -/
def shift (arr : Nat → ℚ) (n : Nat) (num : Int) (fill : ℚ) : Nat → ℚ :=
  fun x =>
    if 0 < num then (if (x : Int) < num then fill else arr (x - num.toNat))
    else if num < 0 then
      (if (x : Int) < (n : Int) + num then arr (x + (-num).toNat) else fill)
    else arr x

/-- Embedding of the cost accumulation loop of get_seam_line:
`res` starts as a copy of `energy`; for each `y ≥ 1`,
`res[y, :] = res[y-1, :] + np.min([row, rowl, rowr], axis=0)` where `row = res[y, :]`
still holds the energies of row `y`, `rowl = shift(row, -1)` and `rowr = shift(row, 1)`
(fill value 255.0). -/
def costGrid (e : Nat → Nat → ℚ) (maxX : Nat) : Nat → Nat → ℚ
  | 0 => e 0
  | y + 1 => fun x =>
      costGrid e maxX y x +
        min (min (e (y + 1) x) (shift (e (y + 1)) maxX (-1) 255 x))
          (shift (e (y + 1)) maxX 1 255 x)

/-- Modelled from the spec claim C1 (refinement comparison only): the textbook
dynamic-programming recurrence `cost[y][x] = energy[y][x] +
min(cost[y-1][x-1], cost[y-1][x], cost[y-1][x+1])` with out-of-range neighbor
columns contributing the sentinel `S`.  This is what the claim asserts the code
computes; compare with `costGrid`, which embeds the source. -/
def costSpec (e : Nat → Nat → ℚ) (maxX : Nat) (S : ℚ) : Nat → Nat → ℚ
  | 0 => e 0
  | y + 1 => fun x =>
      e (y + 1) x +
        min (min (if 0 < x then costSpec e maxX S y (x - 1) else S)
              (costSpec e maxX S y x))
          (if x + 1 < maxX then costSpec e maxX S y (x + 1) else S)

/-- One iteration of the terminal-selection scan: replace the candidate
`(lowest_pos, lowest_value)` when a strictly lower cost is found. -/
def selStep (row : Nat → ℚ) (pv : Nat × ℚ) (x : Nat) : Nat × ℚ :=
  if row x < pv.2 then (x, row x) else pv

/-- The terminal-selection scan state after processing columns `0, …, k-1`,
starting from the candidate `(mid, row mid)`. -/
def selRun (row : Nat → ℚ) (mid : Nat) (k : Nat) : Nat × ℚ :=
  (List.range k).foldl (selStep row) (mid, row mid)

/-- Embedding of terminal selection in get_seam_line: start with the middle column
`max_x // 2` as candidate, scan all columns left to right, replace on strictly
lower cost.  Returns the final `(lowest_pos, lowest_value)`. -/
def terminalSel (row : Nat → ℚ) (maxX : Nat) : Nat × ℚ :=
  (List.range maxX).foldl (selStep row) (maxX / 2, row (maxX / 2))

/-- Embedding of one back-trace step of get_seam_line from current column `c` in row `y`:
`lpos`, `rpos`, `yval`, `yvall`, `yvalr` exactly as in the source, where a guard
`lowest_pos > 1` (left) or `lowest_pos < max_x - 1` (right) failing makes the
corresponding neighbor energy infinite (`np.Inf`), so the comparison cannot fire. -/
def btStep (e : Nat → Nat → ℚ) (maxX y c : Nat) : Nat :=
  let lpos := if 1 < c then c - 1 else 0
  let rpos := if c < maxX - 1 then c + 1 else maxX - 1
  let yval := e y c
  let pos1 := if 1 < c ∧ e y (c - 1) < yval then lpos else c
  if c < maxX - 1 ∧ e y (c + 1) < yval then rpos else pos1

/-- The terminal column written into `lowest_energy_line[max_y - 1]`. -/
def terminalPos (e : Nat → Nat → ℚ) (maxY maxX : Nat) : Nat :=
  (terminalSel (fun x => costGrid e maxX (maxY - 1) x) maxX).1

/-- The back-trace sequence indexed by distance `k` from the bottom row:
`seamAux 0` is the terminal column and `seamAux (k+1)` is one `btStep` above,
at row `maxY - 1 - (k+1)`.  Column indices are kept as exact naturals here;
`seamAuxStored` below models the uint16 array contents. -/
def seamAux (e : Nat → Nat → ℚ) (maxY maxX : Nat) : Nat → Nat
  | 0 => terminalPos e maxY maxX
  | k + 1 => btStep e maxX (maxY - 1 - (k + 1)) (seamAux e maxY maxX k)

/-- The seam path `lowest_energy_line` with exact (unbounded) column indices:
entry for row `y` is `seamAux` at distance `maxY - 1 - y` from the bottom. -/
def seamLine (e : Nat → Nat → ℚ) (maxY maxX y : Nat) : Nat :=
  seamAux e maxY maxX (maxY - 1 - y)

/-- The back-trace sequence as stored in the `uint16` array `lowest_energy_line`:
every written value is reduced modulo 2^16, and subsequent steps read the
stored value back. -/
def seamAuxStored (e : Nat → Nat → ℚ) (maxY maxX : Nat) : Nat → Nat
  | 0 => terminalPos e maxY maxX % 65536
  | k + 1 => btStep e maxX (maxY - 1 - (k + 1)) (seamAuxStored e maxY maxX k) % 65536

/-- The seam path as stored in the `uint16` array, by row. -/
def seamLineStored (e : Nat → Nat → ℚ) (maxY maxX y : Nat) : Nat :=
  seamAuxStored e maxY maxX (maxY - 1 - y)

/-- Luminance conversion for a single-channel (mode L) pixel buffer:
`np.array(i) / 255.0`.  (A 3-channel buffer additionally averages the three
channels pointwise before this step; the average is pointwise and commutes with
all the spatial operations below, so inputs are modelled post-average.) -/
def lum (g : Grid) : Grid :=
  ⟨g.rows, g.cols, fun y x => g.f y x / 255⟩

/-- The signed difference grid `ia = ia2 - ia1` for equal-sized intensity grids
(second image minus first). -/
def diffG (ia1 ia2 : Grid) : Grid :=
  ⟨ia1.rows, ia1.cols, fun y x => ia2.f y x - ia1.f y x⟩

/-- Embedding of `np.rot90(m, 1)`: rotate 90 degrees counter-clockwise;
`result[i][j] = m[j][cols - 1 - i]`. -/
def rot90 (g : Grid) : Grid :=
  ⟨g.cols, g.rows, fun y x => g.f x (g.cols - 1 - y)⟩

/-- Embedding of `np.rot90(m, 3)`: rotate 90 degrees clockwise;
`result[i][j] = m[rows - 1 - j][i]`. -/
def rot270 (g : Grid) : Grid :=
  ⟨g.cols, g.rows, fun y x => g.f (g.rows - 1 - x) y⟩

/-- Embedding of `np.gradient` along axis 0 (rows): one-sided difference at the
two boundary rows, central difference in the interior. -/
def grad0 (g : Grid) (y x : Nat) : ℚ :=
  if y = 0 then g.f 1 x - g.f 0 x
  else if y = g.rows - 1 then g.f y x - g.f (y - 1) x
  else (g.f (y + 1) x - g.f (y - 1) x) / 2

/-- Embedding of `np.gradient` along axis 1 (columns). -/
def grad1 (g : Grid) (y x : Nat) : ℚ :=
  if x = 0 then g.f y 1 - g.f y 0
  else if x = g.cols - 1 then g.f y x - g.f y (x - 1)
  else (g.f y (x + 1) - g.f y (x - 1)) / 2

/-- Embedding of `energy = abs(np.gradient(ia)[1]) + abs(np.gradient(ia)[0])`. -/
def energyGrid (g : Grid) : Grid :=
  ⟨g.rows, g.cols, fun y x => |grad1 g y x| + |grad0 g y x|⟩

/-- Embedding of the mask fill loop: `mask = np.zeros_like(ia)` and then
`mask[ypos, 0:to_fill] = 1` for each row. -/
def maskGrid (rows cols : Nat) (line : Nat → Nat) : Grid :=
  ⟨rows, cols, fun y x => if x < line y then 1 else 0⟩

/-- Embedding of the float-to-uint8 cast `astype("uint8")` applied after scaling:
truncation toward zero and reduction modulo 256 (exact on the values 0.0 and
255.0 that actually occur). -/
def u8 (v : ℚ) : ℚ :=
  (((v.num / (v.den : Int)).toNat % 256 : Nat) : ℚ)

/-- Embedding of get_seam_line from the point where the difference grid `ia` is in
hand: optional rotation, energy, cost accumulation, terminal selection,
back-trace, mask fill, optional back-rotation, scaling by 255 and uint8 cast. -/
def restPipeline (ia0 : Grid) (rotate : Bool) : Grid :=
  let ia := if rotate then rot90 ia0 else ia0
  let line := seamLineStored (energyGrid ia).f ia.rows ia.cols
  let mask := maskGrid ia.rows ia.cols line
  let mask2 := if rotate then rot270 mask else mask
  ⟨mask2.rows, mask2.cols, fun y x => u8 (mask2.f y x * 255)⟩

/-- Embedding of get_seam_line for two equal-sized single-channel inputs. -/
def getSeamLine (i1 i2 : Grid) (rotate : Bool) : Grid :=
  restPipeline (diffG (lum i1) (lum i2)) rotate

/-- The working grid of the pipeline: the difference grid, rotated when the
direction is Top/Bottom. -/
def workGrid (i1 i2 : Grid) (rotate : Bool) : Grid :=
  if rotate then rot90 (diffG (lum i1) (lum i2)) else diffG (lum i1) (lum i2)

/-- The seam path of the pipeline in the working frame. -/
def workLine (i1 i2 : Grid) (rotate : Bool) : Nat → Nat :=
  seamLineStored (energyGrid (workGrid i1 i2 rotate)).f
    (workGrid i1 i2 rotate).rows (workGrid i1 i2 rotate).cols

/-- The working-frame mask scaled to 8-bit values: for each row `y`, columns
`[0, path[y])` are 255 and the rest are 0. -/
def mask255 (i1 i2 : Grid) (rotate : Bool) : Grid :=
  ⟨(workGrid i1 i2 rotate).rows, (workGrid i1 i2 rotate).cols,
    fun y x => if x < workLine i1 i2 rotate y then 255 else 0⟩

/-- Numpy broadcast compatibility of one pair of dimension sizes. -/
def bcCompat (a b : Nat) : Bool :=
  a == b || a == 1 || b == 1

/-- Index adjustment of numpy broadcasting: a size-1 dimension repeats entry 0. -/
def bcIdx (n i : Nat) : Nat :=
  if n = 1 then 0 else i

/-- Modelled from numpy semantics of the unchecked subtraction `ia = ia2 - ia1` in
get_seam_line: two-dimensional broadcasting.  Broadcast-compatible shapes are
silently combined; incompatible shapes raise a library error (modelled as
`none`).  The source performs no shape check of its own. -/
def diffBroadcast (ia1 ia2 : Grid) : Option Grid :=
  if bcCompat ia1.rows ia2.rows && bcCompat ia1.cols ia2.cols then
    some ⟨max ia1.rows ia2.rows, max ia1.cols ia2.cols,
      fun y x =>
        ia2.f (bcIdx ia2.rows y) (bcIdx ia2.cols x) -
          ia1.f (bcIdx ia1.rows y) (bcIdx ia1.cols x)⟩
  else none

/-- Embedding of get_seam_line including the numpy broadcasting behavior of the
initial subtraction, for inputs whose shapes need not match. -/
def getSeamLineB (i1 i2 : Grid) (rotate : Bool) : Option Grid :=
  (diffBroadcast (lum i1) (lum i2)).map (fun ia0 => restPipeline ia0 rotate)

/-- The all-zero energy function, used for concrete witnesses. -/
def exZ : Nat → Nat → ℚ := fun _ _ => 0

/-- Concrete energy grid for claim C1: rows `[0, 5]` and `[5, 0]`. -/
def ex1E : Nat → Nat → ℚ := fun y x =>
  if y = 0 then (if x = 0 then 0 else 5) else (if x = 0 then 5 else 0)

/-- Concrete energy grid for claim C2: a single spike of energy 1 at column 2,
zero elsewhere. -/
def ex2E : Nat → Nat → ℚ := fun _ x => if x = 2 then 1 else 0

/-- Concrete last cost row for claim C3: `[0, 0, 5]`. -/
def ex3R : Nat → ℚ := fun x => if x = 2 then 5 else 0

/-- Concrete energy grid for claim C4: every row is `[0, 5, 9]`. -/
def ex4E : Nat → Nat → ℚ := fun _ x => if x = 0 then 0 else if x = 1 then 5 else 9

/-- Concrete 3-row by 4-column all-zero image. -/
def imgA : Grid := ⟨3, 4, fun _ _ => 0⟩

/-- Concrete 3-row by 4-column all-one image. -/
def imgB : Grid := ⟨3, 4, fun _ _ => 1⟩

/-- Concrete energy grid for the uint16 wrap-around scenario: 131070 columns,
energy 1 at row 1, column 65535, zero elsewhere. -/
def ex5E : Nat → Nat → ℚ := fun y x => if y = 1 ∧ x = 65535 then 1 else 0

/-- Concrete 2-row by 131072-column all-zero image (uint16 wrap-around
scenario for identical inputs). -/
def imgE : Grid := ⟨2, 131072, fun _ _ => 0⟩

/-- Concrete 2-row by 4-column all-zero image (shape-mismatch scenario). -/
def imgC : Grid := ⟨2, 4, fun _ _ => 0⟩

/-- Concrete 1-row by 4-column all-255 image (shape-mismatch scenario). -/
def imgD : Grid := ⟨1, 4, fun _ _ => 255⟩

/-- Value of `shift` by `-1` (the left-shifted row `rowl`): entry `x` holds the
energy of column `x + 1`, or the fill value at the right edge. -/
theorem shift_neg_one (arr : Nat → ℚ) (n : Nat) (fill : ℚ) (x : Nat) :
    shift arr n (-1) fill x = if x + 1 < n then arr (x + 1) else fill := by
  unfold shift
  rw [if_neg (by decide : ¬ (0 : Int) < -1), if_pos (by decide : (-1 : Int) < 0)]
  have h2 : ((x : Int) < (n : Int) + -1) ↔ x + 1 < n := by omega
  by_cases h : x + 1 < n
  · rw [if_pos (h2.mpr h), if_pos h]
    rfl
  · rw [if_neg (fun hc => h (h2.mp hc)), if_neg h]

/-- Value of `shift` by `1` (the right-shifted row `rowr`): entry `x` holds the
energy of column `x - 1`, or the fill value at the left edge. -/
theorem shift_pos_one (arr : Nat → ℚ) (n : Nat) (fill : ℚ) (x : Nat) :
    shift arr n 1 fill x = if x = 0 then fill else arr (x - 1) := by
  unfold shift
  rw [if_pos (by decide : (0 : Int) < 1)]
  have h2 : ((x : Int) < 1) ↔ x = 0 := by omega
  by_cases h : x = 0
  · rw [if_pos (h2.mpr h), if_pos h]
  · rw [if_neg (fun hc => h (h2.mp hc)), if_neg h]
    rfl

/-- The back-trace step with its local bindings expanded. -/
theorem btStep_eq (e : Nat → Nat → ℚ) (maxX y c : Nat) :
    btStep e maxX y c =
      if c < maxX - 1 ∧ e y (c + 1) < e y c then (if c < maxX - 1 then c + 1 else maxX - 1)
      else if 1 < c ∧ e y (c - 1) < e y c then (if 1 < c then c - 1 else 0) else c := rfl

/-- A back-trace step from an in-range column stays in range and moves by at
most one column. -/
theorem btStep_bounds (e : Nat → Nat → ℚ) (maxX y c : Nat) (hc : c < maxX) :
    btStep e maxX y c < maxX ∧ btStep e maxX y c ≤ c + 1 ∧ c ≤ btStep e maxX y c + 1 := by
  rw [btStep_eq]
  by_cases hR : c < maxX - 1 ∧ e y (c + 1) < e y c
  · rw [if_pos hR, if_pos hR.1]
    have := hR.1
    omega
  · rw [if_neg hR]
    by_cases hL : 1 < c ∧ e y (c - 1) < e y c
    · rw [if_pos hL, if_pos hL.1]
      have := hL.1
      omega
    · rw [if_neg hL]
      omega

/-- Unfolding of the selection scan at zero columns. -/
theorem selRun_zero (row : Nat → ℚ) (mid : Nat) : selRun row mid 0 = (mid, row mid) := rfl

/-- Unfolding of the selection scan by one more column. -/
theorem selRun_succ (row : Nat → ℚ) (mid k : Nat) :
    selRun row mid (k + 1) = selStep row (selRun row mid k) k := by
  unfold selRun
  rw [List.range_succ, List.foldl_append, List.foldl_cons, List.foldl_nil]

/-- The terminal selection is the scan over all columns started at the middle. -/
theorem terminalSel_eq_selRun (row : Nat → ℚ) (maxX : Nat) :
    terminalSel row maxX = selRun row (maxX / 2) maxX := rfl

/-- Invariant of the terminal-selection scan after processing columns `0, …, k-1`:
the tracked value belongs to the tracked position, never exceeds the initial
middle value nor any processed column, equals the middle value only at the
middle position, and when strictly below the middle value the position is the
leftmost processed column attaining it. -/
theorem selRun_spec (row : Nat → ℚ) (mid : Nat) (k : Nat) :
    (selRun row mid k).2 = row (selRun row mid k).1 ∧
    (selRun row mid k).2 ≤ row mid ∧
    (∀ x, x < k → (selRun row mid k).2 ≤ row x) ∧
    ((selRun row mid k).2 = row mid → (selRun row mid k).1 = mid) ∧
    ((selRun row mid k).2 < row mid →
      (selRun row mid k).1 < k ∧
        ∀ x, x < (selRun row mid k).1 → (selRun row mid k).2 < row x) := by
  induction k with
  | zero =>
      refine ⟨rfl, le_refl _, ?_, ?_, ?_⟩
      · intro x hx
        exact absurd hx (Nat.not_lt_zero x)
      · intro _
        rfl
      · intro hlt
        exact absurd hlt (lt_irrefl _)
  | succ k ih =>
      obtain ⟨h1, h2, h3, h4, h5⟩ := ih
      rw [selRun_succ]
      unfold selStep
      by_cases h : row k < (selRun row mid k).2
      · rw [if_pos h]
        refine ⟨rfl, le_of_lt (lt_of_lt_of_le h h2), ?_, ?_, ?_⟩
        · intro x hx
          rcases Nat.lt_succ_iff_lt_or_eq.mp hx with hx | hx
          · exact le_of_lt (lt_of_lt_of_le h (h3 x hx))
          · subst hx
            exact le_refl _
        · intro hEq
          exact absurd (hEq ▸ lt_of_lt_of_le h h2) (lt_irrefl _)
        · intro _
          exact ⟨Nat.lt_succ_self k, fun x hx => lt_of_lt_of_le h (h3 x hx)⟩
      · rw [if_neg h]
        refine ⟨h1, h2, ?_, h4, ?_⟩
        · intro x hx
          rcases Nat.lt_succ_iff_lt_or_eq.mp hx with hx | hx
          · exact h3 x hx
          · subst hx
            exact le_of_not_lt h
        · intro hlt
          obtain ⟨hp, hleft⟩ := h5 hlt
          exact ⟨Nat.lt_succ_of_lt hp, hleft⟩

/-- The terminal selection returns an in-range column when there is at least
one column. -/
theorem terminalSel_lt (row : Nat → ℚ) (maxX : Nat) (h : 0 < maxX) :
    (terminalSel row maxX).1 < maxX := by
  rw [terminalSel_eq_selRun]
  obtain ⟨h1, h2, _, h4, h5⟩ := selRun_spec row (maxX / 2) maxX
  rcases lt_or_eq_of_le h2 with hlt | heq
  · exact (h5 hlt).1
  · rw [h4 heq]
    exact Nat.div_lt_self h one_lt_two

/-- The terminal column of the seam is in range. -/
theorem terminalPos_lt (e : Nat → Nat → ℚ) (maxY maxX : Nat) (h : 0 < maxX) :
    terminalPos e maxY maxX < maxX :=
  terminalSel_lt (fun x => costGrid e maxX (maxY - 1) x) maxX h

/-- Every entry of the (exact) back-trace sequence is in range. -/
theorem seamAux_lt (e : Nat → Nat → ℚ) (maxY maxX : Nat) (h : 0 < maxX) :
    ∀ k, seamAux e maxY maxX k < maxX := by
  intro k
  induction k with
  | zero => exact terminalPos_lt e maxY maxX h
  | succ k ih =>
      exact (btStep_bounds e maxX (maxY - 1 - (k + 1)) (seamAux e maxY maxX k) ih).1

/-- C1 (amended): the cost accumulation satisfies `cost[0][x] = energy[0][x]`, and
for `y > 0` it adds the previous cost at the SAME column to the minimum of the
current row energies at columns `x`, `x+1`, `x-1`, where a column outside
`[0, cols)` contributes the finite sentinel 255 (never wrap-around or zero). -/
theorem c1_cost_recurrence (e : Nat → Nat → ℚ) (maxX y x : Nat) :
    costGrid e maxX 0 x = e 0 x ∧
    costGrid e maxX (y + 1) x =
      costGrid e maxX y x +
        min (min (e (y + 1) x) (if x + 1 < maxX then e (y + 1) (x + 1) else 255))
          (if x = 0 then 255 else e (y + 1) (x - 1)) := by
  refine ⟨rfl, ?_⟩
  show costGrid e maxX y x +
      min (min (e (y + 1) x) (shift (e (y + 1)) maxX (-1) 255 x))
        (shift (e (y + 1)) maxX 1 255 x) = _
  rw [shift_neg_one, shift_pos_one]

section RatKernelEval

attribute [local semireducible] Rat.add Rat.mul Rat.inv Rat.sub

/-- C1 counterexample: on the energy grid with rows `[0, 5]` and `[5, 0]` the code
computes `cost[1][0] = 0`, while the claimed textbook recurrence (with any
nonnegative sentinel, shown here for 1000000) yields `5`. -/
theorem c1_counterexample :
    costGrid ex1E 2 1 0 = 0 ∧ costSpec ex1E 2 1000000 1 0 = 5 ∧ (0 : ℚ) ≠ 5 := by
  decide

end RatKernelEval

/-- C2 (amended): away from the guard boundaries, the back-trace step moves right
exactly when the right neighbor energy is strictly lower; it moves left exactly
when the left neighbor energy is strictly lower AND the right one is not; it
stays exactly when neither neighbor is strictly lower.  In particular, when both
neighbors are strictly lower the step moves RIGHT (the two checks fire
sequentially and the right one wins), not stays. -/
theorem c2_backtrace_cases (e : Nat → Nat → ℚ) (maxX y c : Nat)
    (h1 : 1 < c) (h2 : c < maxX - 1) :
    (btStep e maxX y c = c + 1 ↔ e y (c + 1) < e y c) ∧
    (btStep e maxX y c = c - 1 ↔ (¬ e y (c + 1) < e y c ∧ e y (c - 1) < e y c)) ∧
    (btStep e maxX y c = c ↔ (¬ e y (c + 1) < e y c ∧ ¬ e y (c - 1) < e y c)) := by
  rw [btStep_eq]
  by_cases hR : e y (c + 1) < e y c
  · rw [if_pos ⟨h2, hR⟩, if_pos h2]
    refine ⟨⟨fun _ => hR, fun _ => rfl⟩, ?_, ?_⟩
    · exact ⟨fun hEq => absurd hEq (by omega), fun hq => absurd hR hq.1⟩
    · exact ⟨fun hEq => absurd hEq (by omega), fun hq => absurd hR hq.1⟩
  · rw [if_neg (fun hA => hR hA.2)]
    by_cases hL : e y (c - 1) < e y c
    · rw [if_pos ⟨h1, hL⟩, if_pos h1]
      refine ⟨?_, ?_, ?_⟩
      · exact ⟨fun hEq => absurd hEq (by omega), fun hq => absurd hq hR⟩
      · exact ⟨fun _ => ⟨hR, hL⟩, fun _ => rfl⟩
      · exact ⟨fun hEq => absurd hEq (by omega), fun hq => absurd hL hq.2⟩
    · rw [if_neg (fun hA => hL hA.2)]
      refine ⟨?_, ?_, ?_⟩
      · exact ⟨fun hEq => absurd hEq (by omega), fun hq => absurd hq hR⟩
      · exact ⟨fun hEq => absurd hEq (by omega), fun hq => absurd hq.2 hL⟩
      · exact ⟨fun _ => ⟨hR, hL⟩, fun _ => rfl⟩

/-- C2 counterexample: with energies `[0, 0, 1, 0, 0]` in the row and current
column 2, BOTH neighbors have strictly lower energy, and the code moves RIGHT to
column 3, whereas the claim says the step stays at column 2. -/
theorem c2_counterexample :
    ex2E 0 1 < ex2E 0 2 ∧ ex2E 0 3 < ex2E 0 2 ∧ btStep ex2E 5 0 2 = 3 := by
  decide

/-- C2 witness: the amended characterization applied at the concrete input. -/
theorem c2_witness : btStep ex2E 5 0 2 = 2 + 1 ↔ ex2E 0 (2 + 1) < ex2E 0 2 :=
  (c2_backtrace_cases ex2E 5 0 2 (by decide) (by decide)).1

/-- C3 (amended): the terminal selection always attains the minimum of the row;
it returns the middle column whenever the middle column attains the row minimum
(not only when the whole row is equal), and otherwise returns the leftmost
column attaining the minimum. -/
theorem c3_terminal_rule (row : Nat → ℚ) (maxX : Nat) (h : 0 < maxX) :
    (terminalSel row maxX).1 < maxX ∧
    (∀ x, x < maxX → row (terminalSel row maxX).1 ≤ row x) ∧
    (row (maxX / 2) = row (terminalSel row maxX).1 → (terminalSel row maxX).1 = maxX / 2) ∧
    (row (terminalSel row maxX).1 < row (maxX / 2) →
      ∀ x, x < (terminalSel row maxX).1 → row (terminalSel row maxX).1 < row x) := by
  have hlt := terminalSel_lt row maxX h
  rw [terminalSel_eq_selRun] at hlt ⊢
  obtain ⟨h1, h2, h3, h4, h5⟩ := selRun_spec row (maxX / 2) maxX
  refine ⟨hlt, ?_, ?_, ?_⟩
  · intro x hx
    have hv := h3 x hx
    rwa [h1] at hv
  · intro hEq
    exact h4 (h1.trans hEq.symm)
  · intro hlt2 x hx
    have hv : (selRun row (maxX / 2) maxX).2 < row (maxX / 2) := by
      rw [h1]
      exact hlt2
    have hx2 := (h5 hv).2 x hx
    rwa [h1] at hx2

/-- C3 counterexample: on the last cost row `[0, 0, 5]` (not all equal), the
leftmost column attaining the minimum is 0, but the code returns the middle
column 1 because the middle column also attains the minimum. -/
theorem c3_counterexample :
    (terminalSel ex3R 3).1 = 1 ∧ ex3R 0 = ex3R 1 ∧ ex3R 0 < ex3R 2 ∧ (1 : Nat) ≠ 0 := by
  decide

/-- C3 witness: the amended rule applied at the concrete row. -/
theorem c3_witness : (terminalSel ex3R 3).1 < 3 :=
  (c3_terminal_rule ex3R 3 (by decide)).1

/-- C4 evaluation at the failing input: with every row `[0, 5, 9]` and current
column 1, the left neighbor (column 0, in range) has strictly lower energy and
the right neighbor does not, so by the claim the step should move to column 0;
the code guard `lowest_pos > 1` treats the left neighbor as infinite for
column 1 and the step stays at column 1. -/
theorem c4_left_guard_eval :
    ex4E 0 0 < ex4E 0 1 ∧ ¬ ex4E 0 2 < ex4E 0 1 ∧ btStep ex4E 3 0 1 = 1 := by
  decide

/-- Locality of the exact (unbounded-index) back-trace: consecutive rows differ
by at most one column. -/
theorem seamLine_locality (e : Nat → Nat → ℚ) (maxY maxX : Nat) (hX : 0 < maxX)
    (y : Nat) (hy0 : 0 < y) (hy : y < maxY) :
    ((seamLine e maxY maxX y : Int) - (seamLine e maxY maxX (y - 1) : Int)).natAbs ≤ 1 := by
  unfold seamLine
  have hk : maxY - 1 - (y - 1) = (maxY - 1 - y) + 1 := by omega
  rw [hk]
  have hc := seamAux_lt e maxY maxX hX (maxY - 1 - y)
  have hb := btStep_bounds e maxX (maxY - 1 - ((maxY - 1 - y) + 1))
    (seamAux e maxY maxX (maxY - 1 - y)) hc
  have hstep : seamAux e maxY maxX ((maxY - 1 - y) + 1) =
      btStep e maxX (maxY - 1 - ((maxY - 1 - y) + 1)) (seamAux e maxY maxX (maxY - 1 - y)) := rfl
  rw [hstep]
  omega

/-- With 1 to 65535 columns, every value written to the uint16 path array is
below 2^16, so the stored back-trace sequence coincides with the exact one and
stays in range. -/
theorem seamAuxStored_eq (e : Nat → Nat → ℚ) (maxY maxX : Nat)
    (h1 : 0 < maxX) (h2 : maxX ≤ 65535) :
    ∀ k, seamAuxStored e maxY maxX k = seamAux e maxY maxX k ∧
      seamAuxStored e maxY maxX k < maxX := by
  intro k
  induction k with
  | zero =>
      have ht := terminalPos_lt e maxY maxX h1
      have hmod : terminalPos e maxY maxX % 65536 = terminalPos e maxY maxX :=
        Nat.mod_eq_of_lt (by omega)
      refine ⟨hmod, ?_⟩
      show terminalPos e maxY maxX % 65536 < maxX
      omega
  | succ k ih =>
      have hlt : seamAux e maxY maxX k < maxX := by
        rw [← ih.1]
        exact ih.2
      have hb := (btStep_bounds e maxX (maxY - 1 - (k + 1)) (seamAux e maxY maxX k) hlt).1
      have heq : btStep e maxX (maxY - 1 - (k + 1)) (seamAuxStored e maxY maxX k) % 65536 =
          btStep e maxX (maxY - 1 - (k + 1)) (seamAux e maxY maxX k) := by
        rw [ih.1]
        exact Nat.mod_eq_of_lt (by omega)
      refine ⟨heq, ?_⟩
      show btStep e maxX (maxY - 1 - (k + 1)) (seamAuxStored e maxY maxX k) % 65536 < maxX
      rw [heq]
      exact hb

/-- On a constant row the terminal selection never improves on the initial
middle candidate. -/
theorem terminalSel_const (row : Nat → ℚ) (maxX : Nat) (c : ℚ) (hrow : ∀ x, row x = c) :
    (terminalSel row maxX).1 = maxX / 2 := by
  rw [terminalSel_eq_selRun]
  obtain ⟨h1, _h2, _h3, h4, _h5⟩ := selRun_spec row (maxX / 2) maxX
  apply h4
  rw [h1, hrow, hrow]

/-- When the last cost row is constant, the terminal column is the middle
column. -/
theorem terminalPos_const (e : Nat → Nat → ℚ) (maxY maxX : Nat) (c : ℚ)
    (hrow : ∀ x, costGrid e maxX (maxY - 1) x = c) :
    terminalPos e maxY maxX = maxX / 2 := by
  show (terminalSel (fun x => costGrid e maxX (maxY - 1) x) maxX).1 = maxX / 2
  exact terminalSel_const (fun x => costGrid e maxX (maxY - 1) x) maxX c hrow

/-- Unfolding of the stored back-trace at the bottom row. -/
theorem seamAuxStored_zero_eq (e : Nat → Nat → ℚ) (maxY maxX : Nat) :
    seamAuxStored e maxY maxX 0 = terminalPos e maxY maxX % 65536 := rfl

/-- Unfolding of the stored back-trace by one step. -/
theorem seamAuxStored_succ_eq (e : Nat → Nat → ℚ) (maxY maxX k : Nat) :
    seamAuxStored e maxY maxX (k + 1) =
      btStep e maxX (maxY - 1 - (k + 1)) (seamAuxStored e maxY maxX k) % 65536 := rfl

/-- Unfolding of the stored path row indexing. -/
theorem seamLineStored_eq (e : Nat → Nat → ℚ) (maxY maxX y : Nat) :
    seamLineStored e maxY maxX y = seamAuxStored e maxY maxX (maxY - 1 - y) := rfl

/-- C5 (amended): for inputs with 1 to 65535 columns (the regime in which the
uint16 path array is faithful), the stored seam path satisfies the locality
invariant: consecutive rows differ by at most one column. -/
theorem c5_seam_locality (e : Nat → Nat → ℚ) (maxY maxX : Nat) (hX : 0 < maxX)
    (hb : maxX ≤ 65535) (y : Nat) (hy0 : 0 < y) (hy : y < maxY) :
    ((seamLineStored e maxY maxX y : Int) -
      (seamLineStored e maxY maxX (y - 1) : Int)).natAbs ≤ 1 := by
  have hs1 := (seamAuxStored_eq e maxY maxX hX hb (maxY - 1 - y)).1
  have hs2 := (seamAuxStored_eq e maxY maxX hX hb (maxY - 1 - (y - 1))).1
  show ((seamAuxStored e maxY maxX (maxY - 1 - y) : Int) -
      (seamAuxStored e maxY maxX (maxY - 1 - (y - 1)) : Int)).natAbs ≤ 1
  rw [hs1, hs2]
  exact seamLine_locality e maxY maxX hX y hy0 hy

/-- C5 witness: locality of the stored path at a concrete input. -/
theorem c5_witness :
    ((seamLineStored exZ 2 2 1 : Int) - (seamLineStored exZ 2 2 0 : Int)).natAbs ≤ 1 :=
  c5_seam_locality exZ 2 2 (by decide) (by decide) 1 (by decide) (by decide)

/-- C5 counterexample: a valid 131070-column, 3-row energy grid (a single spike
of energy 1 at row 1, column 65535) on which the program violates locality: the
last cost row is all zero so terminal selection keeps the middle column 65535;
the back-trace step at row 1 moves right to column 65536, which the uint16 array
stores as 0, so consecutive stored path entries are 65535 and 0. -/
theorem c5_counterexample :
    seamLineStored ex5E 3 131070 2 = 65535 ∧
    seamLineStored ex5E 3 131070 1 = 0 ∧
    ¬ ((seamLineStored ex5E 3 131070 2 : Int) -
        (seamLineStored ex5E 3 131070 1 : Int)).natAbs ≤ 1 := by
  have hcost0 : ∀ x, costGrid ex5E 131070 0 x = 0 := by
    intro x
    show ex5E 0 x = 0
    simp [ex5E]
  have hmin1 : ∀ x, min (min (ex5E 1 x) (shift (ex5E 1) 131070 (-1) 255 x))
      (shift (ex5E 1) 131070 1 255 x) = 0 := by
    intro x
    rw [shift_neg_one, shift_pos_one]
    by_cases hx : x = 65535
    · subst hx
      decide
    · have e0 : ex5E 1 x = 0 := by simp [ex5E, hx]
      have hbv : (0 : ℚ) ≤ (if x + 1 < 131070 then ex5E 1 (x + 1) else 255) := by
        split_ifs
        · simp only [ex5E]
          split_ifs <;> norm_num
        · norm_num
      have hcv : (0 : ℚ) ≤ (if x = 0 then (255 : ℚ) else ex5E 1 (x - 1)) := by
        split_ifs
        · norm_num
        · simp only [ex5E]
          split_ifs <;> norm_num
      rw [e0, min_eq_left hbv, min_eq_left hcv]
  have hmin2 : ∀ x, min (min (ex5E 2 x) (shift (ex5E 2) 131070 (-1) 255 x))
      (shift (ex5E 2) 131070 1 255 x) = 0 := by
    intro x
    rw [shift_neg_one, shift_pos_one]
    have e0 : ∀ z, ex5E 2 z = 0 := by
      intro z
      simp [ex5E]
    have hbv : (0 : ℚ) ≤ (if x + 1 < 131070 then ex5E 2 (x + 1) else 255) := by
      split_ifs
      · exact le_of_eq (e0 (x + 1)).symm
      · norm_num
    have hcv : (0 : ℚ) ≤ (if x = 0 then (255 : ℚ) else ex5E 2 (x - 1)) := by
      split_ifs
      · norm_num
      · exact le_of_eq (e0 (x - 1)).symm
    rw [e0 x, min_eq_left hbv, min_eq_left hcv]
  have hcost1 : ∀ x, costGrid ex5E 131070 1 x = 0 := by
    intro x
    show costGrid ex5E 131070 0 x +
        min (min (ex5E 1 x) (shift (ex5E 1) 131070 (-1) 255 x))
          (shift (ex5E 1) 131070 1 255 x) = 0
    rw [hcost0 x, hmin1 x]
    norm_num
  have hcost2 : ∀ x, costGrid ex5E 131070 2 x = 0 := by
    intro x
    show costGrid ex5E 131070 1 x +
        min (min (ex5E 2 x) (shift (ex5E 2) 131070 (-1) 255 x))
          (shift (ex5E 2) 131070 1 255 x) = 0
    rw [hcost1 x, hmin2 x]
    norm_num
  have hterm : terminalPos ex5E 3 131070 = 65535 := by
    have h := terminalPos_const ex5E 3 131070 0 (fun x => hcost2 x)
    exact h.trans (by decide)
  have hst0 : seamAuxStored ex5E 3 131070 0 = 65535 := by
    rw [seamAuxStored_zero_eq, hterm]
  have hst1 : seamAuxStored ex5E 3 131070 1 = 0 := by
    rw [seamAuxStored_succ_eq ex5E 3 131070 0, hst0]
    decide
  have hl2 : seamLineStored ex5E 3 131070 2 = 65535 := by
    rw [seamLineStored_eq]
    exact hst0
  have hl1 : seamLineStored ex5E 3 131070 1 = 0 := by
    rw [seamLineStored_eq]
    exact hst1
  refine ⟨hl2, hl1, ?_⟩
  rw [hl2, hl1]
  decide

/-- C9 evaluation at the failing input: the inputs have differing spatial
dimensions (2 rows versus 1 row), yet the computation does not reject them: the
numpy-broadcast subtraction succeeds and a full 2-by-4 mask is produced. -/
theorem c9_broadcast_eval :
    imgC.rows ≠ imgD.rows ∧
    (getSeamLineB imgC imgD false).isSome = true ∧
    (getSeamLineB imgC imgD false).map Grid.rows = some 2 ∧
    (getSeamLineB imgC imgD false).map Grid.cols = some 4 :=
  ⟨by decide, rfl, rfl, rfl⟩

/-- C10: when there is at least one and at most 65535 columns, every entry of the
stored (uint16) seam path is in `[0, cols)` and the uint16 storage is faithful:
the stored path coincides with the exact path, so the mask row fill
`mask[y, 0:path[y]]` stays within the row. -/
theorem c10_stored_inrange (e : Nat → Nat → ℚ) (maxY maxX : Nat)
    (h1 : 0 < maxX) (h2 : maxX ≤ 65535) (y : Nat) :
    seamLineStored e maxY maxX y < maxX ∧
    seamLineStored e maxY maxX y = seamLine e maxY maxX y :=
  ⟨(seamAuxStored_eq e maxY maxX h1 h2 (maxY - 1 - y)).2,
    (seamAuxStored_eq e maxY maxX h1 h2 (maxY - 1 - y)).1⟩

/-- C10 witness: the bound applied at a concrete input. -/
theorem c10_witness :
    seamLineStored exZ 2 2 0 < 2 ∧ seamLineStored exZ 2 2 0 = seamLine exZ 2 2 0 :=
  c10_stored_inrange exZ 2 2 (by decide) (by decide) 0

/-- Two grids with equal fields are equal. -/
theorem grid_eq (g1 g2 : Grid) (hr : g1.rows = g2.rows) (hc : g1.cols = g2.cols)
    (hf : g1.f = g2.f) : g1 = g2 := by
  cases g1
  cases g2
  dsimp only at hr hc hf
  subst hr
  subst hc
  subst hf
  rfl

/-- Rotating both inputs by 90 degrees commutes with luminance conversion and
difference, for inputs with the same number of columns. -/
theorem diff_lum_rot (A B : Grid) (hc : A.cols = B.cols) :
    diffG (lum (rot90 A)) (lum (rot90 B)) = rot90 (diffG (lum A) (lum B)) := by
  cases A
  cases B
  dsimp only at hc
  subst hc
  rfl

/-- C6: running the pipeline with rotation (Top/Bottom) on `A, B` produces
exactly the mask obtained by running it without rotation (Left/Right) on the
90-degree-rotated inputs and rotating the result back 90 degrees the opposite
way. -/
theorem c6_rotation_consistency (A B : Grid) (_hr : A.rows = B.rows) (hc : A.cols = B.cols) :
    getSeamLine A B true = rot270 (getSeamLine (rot90 A) (rot90 B) false) := by
  unfold getSeamLine
  rw [diff_lum_rot A B hc]
  rfl

/-- C6 witness: rotation consistency at a concrete pair of images. -/
theorem c6_witness :
    getSeamLine imgA imgB true = rot270 (getSeamLine (rot90 imgA) (rot90 imgB) false) :=
  c6_rotation_consistency imgA imgB rfl rfl

/-- The energy grid of an everywhere-zero grid is zero everywhere. -/
theorem energyGrid_zero (g : Grid) (hg : ∀ y x, g.f y x = 0) :
    ∀ y x, (energyGrid g).f y x = 0 := by
  intro y x
  show |grad1 g y x| + |grad0 g y x| = 0
  have h1 : grad1 g y x = 0 := by
    unfold grad1
    split_ifs <;> rw [hg, hg] <;> norm_num
  have h0 : grad0 g y x = 0 := by
    unfold grad0
    split_ifs <;> rw [hg, hg] <;> norm_num
  rw [h1, h0]
  norm_num

/-- The cumulative cost of an everywhere-zero energy function is zero
everywhere. -/
theorem costGrid_zero (e : Nat → Nat → ℚ) (maxX : Nat) (he : ∀ a b, e a b = 0) :
    ∀ y x, costGrid e maxX y x = 0 := by
  intro y
  induction y with
  | zero =>
      intro x
      exact he 0 x
  | succ y ih =>
      intro x
      show costGrid e maxX y x +
          min (min (e (y + 1) x) (shift (e (y + 1)) maxX (-1) 255 x))
            (shift (e (y + 1)) maxX 1 255 x) = 0
      have hA : min (e (y + 1) x) (shift (e (y + 1)) maxX (-1) 255 x) = 0 := by
        rw [shift_neg_one, he]
        split_ifs with hx
        · rw [he]
          exact min_self 0
        · exact min_eq_left (by norm_num)
      rw [ih x, hA, shift_pos_one, zero_add]
      split_ifs with hx
      · exact min_eq_left (by norm_num)
      · rw [he]
        exact min_self 0

/-- On an everywhere-zero cost row the terminal selection keeps the middle
column as its candidate. -/
theorem terminalPos_zero (e : Nat → Nat → ℚ) (maxY maxX : Nat) (he : ∀ a b, e a b = 0) :
    terminalPos e maxY maxX = maxX / 2 := by
  have hrow : ∀ x, costGrid e maxX (maxY - 1) x = 0 := costGrid_zero e maxX he (maxY - 1)
  show (terminalSel (fun x => costGrid e maxX (maxY - 1) x) maxX).1 = maxX / 2
  rw [terminalSel_eq_selRun]
  obtain ⟨h1, h2, h3, h4, h5⟩ :=
    selRun_spec (fun x => costGrid e maxX (maxY - 1) x) (maxX / 2) maxX
  apply h4
  rw [h1]
  show costGrid e maxX (maxY - 1) _ = costGrid e maxX (maxY - 1) (maxX / 2)
  rw [hrow, hrow]

/-- With everywhere-zero energies no neighbor is strictly lower, so a back-trace
step never moves. -/
theorem btStep_zero (e : Nat → Nat → ℚ) (maxX y c : Nat) (he : ∀ a b, e a b = 0) :
    btStep e maxX y c = c := by
  rw [btStep_eq]
  have hR : ¬ (c < maxX - 1 ∧ e y (c + 1) < e y c) := by
    intro hA
    have hx := hA.2
    rw [he, he] at hx
    exact lt_irrefl 0 hx
  have hL : ¬ (1 < c ∧ e y (c - 1) < e y c) := by
    intro hA
    have hx := hA.2
    rw [he, he] at hx
    exact lt_irrefl 0 hx
  rw [if_neg hR, if_neg hL]

/-- With everywhere-zero energies the back-trace never moves, so every entry of
the stored (uint16) path is the middle column reduced modulo 2^16. -/
theorem seamAuxStored_zero (e : Nat → Nat → ℚ) (maxY maxX : Nat) (he : ∀ a b, e a b = 0) :
    ∀ k, seamAuxStored e maxY maxX k = maxX / 2 % 65536 := by
  intro k
  induction k with
  | zero =>
      show terminalPos e maxY maxX % 65536 = maxX / 2 % 65536
      rw [terminalPos_zero e maxY maxX he]
  | succ k ih =>
      show btStep e maxX (maxY - 1 - (k + 1)) (seamAuxStored e maxY maxX k) % 65536 =
        maxX / 2 % 65536
      rw [btStep_zero e maxX _ _ he, ih]
      omega

section RatKernelEvalPipeline

attribute [local semireducible] Rat.add Rat.mul Rat.inv Rat.sub

/-- The uint8 scaling of a mask value 1 is 255. -/
theorem u8_one : u8 (1 * 255) = 255 := by decide

/-- The uint8 scaling of a mask value 0 is 0. -/
theorem u8_zero : u8 (0 * 255) = 0 := by decide

set_option maxRecDepth 400000 in
/-- C7 (amended): when the two intensity grids are identical everywhere, the
energy grid is zero everywhere, the cumulative cost grid is zero everywhere,
terminal selection returns the middle column `cols / 2` and the back-trace never
moves, so every entry of the stored (uint16) seam path is the constant
`(cols / 2) % 65536` — equal to the middle column whenever `cols ≤ 65535`;
concretely, for the 3-row by 4-column pair with image A all-zero and image B
all-one, the seam path is `[2, 2, 2]` and the mask has columns 0 and 1 equal to
255 and columns 2 and 3 equal to 0 in all rows. -/
theorem c7_zero_diff :
    (∀ i1 i2 : Grid, (∀ y x, i1.f y x = i2.f y x) →
      (∀ y x, (energyGrid (diffG (lum i1) (lum i2))).f y x = 0) ∧
      (∀ y x, costGrid (energyGrid (diffG (lum i1) (lum i2))).f i1.cols y x = 0) ∧
      terminalPos (energyGrid (diffG (lum i1) (lum i2))).f i1.rows i1.cols = i1.cols / 2 ∧
      (∀ y, seamLineStored (energyGrid (diffG (lum i1) (lum i2))).f i1.rows i1.cols y =
        i1.cols / 2 % 65536)) ∧
    ((∀ y, y < 3 → seamLineStored (energyGrid (diffG (lum imgA) (lum imgB))).f 3 4 y = 2) ∧
      (∀ y, y < 3 → ∀ x, x < 4 →
        (getSeamLine imgA imgB false).f y x = if x < 2 then 255 else 0)) := by
  constructor
  · intro i1 i2 h
    have hd : ∀ y x, (diffG (lum i1) (lum i2)).f y x = 0 := by
      intro y x
      show i2.f y x / 255 - i1.f y x / 255 = 0
      rw [h y x, sub_self]
    have he := energyGrid_zero (diffG (lum i1) (lum i2)) hd
    exact ⟨he, costGrid_zero _ i1.cols he, terminalPos_zero _ i1.rows i1.cols he,
      fun y => seamAuxStored_zero _ i1.rows i1.cols he _⟩
  · exact ⟨by decide, by decide⟩

end RatKernelEvalPipeline

/-- C7 counterexample: for identical all-zero 2-row by 131072-column inputs the
middle column is 131072 / 2 = 65536, but the path is stored in a uint16 array,
so every stored seam entry is 65536 % 65536 = 0: the actual seam of the program
is NOT the constant middle column in that regime. -/
theorem c7_counterexample :
    seamLineStored (energyGrid (diffG (lum imgE) (lum imgE))).f 2 131072 1 = 0 ∧
    131072 / 2 = 65536 ∧ (0 : Nat) ≠ 65536 := by
  have hd : ∀ y x, (diffG (lum imgE) (lum imgE)).f y x = 0 := by
    intro y x
    show imgE.f y x / 255 - imgE.f y x / 255 = 0
    rw [sub_self]
  have he := energyGrid_zero (diffG (lum imgE) (lum imgE)) hd
  refine ⟨?_, by decide, by decide⟩
  have h := seamAuxStored_zero (energyGrid (diffG (lum imgE) (lum imgE))).f 2 131072 he 0
  exact h.trans (by decide)

/-- C7 witness: the zero-difference conclusions applied at a concrete pair of
identical inputs. -/
theorem c7_witness :
    (energyGrid (diffG (lum imgA) (lum imgA))).f 0 0 = 0 ∧
    terminalPos (energyGrid (diffG (lum imgA) (lum imgA))).f 3 4 = 2 := by
  have h := c7_zero_diff.1 imgA imgA (fun _ _ => rfl)
  exact ⟨h.1 0 0, h.2.2.1⟩

/-- C8: the returned mask has the same dimensions as the un-transposed inputs,
every entry is 0 or 255, and the mask is exactly the (possibly back-rotated)
working-frame mask whose row `y` is 255 on columns `[0, path[y])` and 0
elsewhere. -/
theorem c8_mask_shape (i1 i2 : Grid) (rot : Bool)
    (_hr : i1.rows = i2.rows) (_hc : i1.cols = i2.cols) :
    (getSeamLine i1 i2 rot).rows = i1.rows ∧
    (getSeamLine i1 i2 rot).cols = i1.cols ∧
    (∀ y x, (getSeamLine i1 i2 rot).f y x = 0 ∨ (getSeamLine i1 i2 rot).f y x = 255) ∧
    getSeamLine i1 i2 rot = (if rot then rot270 (mask255 i1 i2 rot) else mask255 i1 i2 rot) := by
  cases rot with
  | false =>
      refine ⟨rfl, rfl, ?_, ?_⟩
      · intro y x
        show u8 ((if x < workLine i1 i2 false y then (1 : ℚ) else 0) * 255) = 0 ∨
          u8 ((if x < workLine i1 i2 false y then (1 : ℚ) else 0) * 255) = 255
        by_cases hxy : x < workLine i1 i2 false y
        · rw [if_pos hxy]
          exact Or.inr u8_one
        · rw [if_neg hxy]
          exact Or.inl u8_zero
      · show getSeamLine i1 i2 false = mask255 i1 i2 false
        apply grid_eq
        · rfl
        · rfl
        funext y x
        show u8 ((if x < workLine i1 i2 false y then (1 : ℚ) else 0) * 255) =
          (if x < workLine i1 i2 false y then (255 : ℚ) else 0)
        by_cases hxy : x < workLine i1 i2 false y
        · rw [if_pos hxy, if_pos hxy]
          exact u8_one
        · rw [if_neg hxy, if_neg hxy]
          exact u8_zero
  | true =>
      refine ⟨rfl, rfl, ?_, ?_⟩
      · intro y x
        show u8 ((if y < workLine i1 i2 true ((workGrid i1 i2 true).rows - 1 - x)
            then (1 : ℚ) else 0) * 255) = 0 ∨
          u8 ((if y < workLine i1 i2 true ((workGrid i1 i2 true).rows - 1 - x)
            then (1 : ℚ) else 0) * 255) = 255
        by_cases hxy : y < workLine i1 i2 true ((workGrid i1 i2 true).rows - 1 - x)
        · rw [if_pos hxy]
          exact Or.inr u8_one
        · rw [if_neg hxy]
          exact Or.inl u8_zero
      · show getSeamLine i1 i2 true = rot270 (mask255 i1 i2 true)
        apply grid_eq
        · rfl
        · rfl
        funext y x
        show u8 ((if y < workLine i1 i2 true ((workGrid i1 i2 true).rows - 1 - x)
            then (1 : ℚ) else 0) * 255) =
          (if y < workLine i1 i2 true ((workGrid i1 i2 true).rows - 1 - x)
            then (255 : ℚ) else 0)
        by_cases hxy : y < workLine i1 i2 true ((workGrid i1 i2 true).rows - 1 - x)
        · rw [if_pos hxy, if_pos hxy]
          exact u8_one
        · rw [if_neg hxy, if_neg hxy]
          exact u8_zero

/-- C8 witness: mask dimensions at a concrete pair of inputs. -/
theorem c8_witness :
    (getSeamLine imgA imgB false).rows = 3 ∧ (getSeamLine imgA imgB false).cols = 4 :=
  ⟨(c8_mask_shape imgA imgB false rfl rfl).1, (c8_mask_shape imgA imgB false rfl rfl).2.1⟩

end SmartSeam
